import Mathlib

/-!
Verification of the sc-signal library: Clipper, Lowpass, Hysteresis,
Scaler (single-sample signal-processing primitives).

Two numeric models are used, both shallow embeddings of the JavaScript
source:

* `JsNum` — JavaScript numbers modelled as rationals extended with
  `NaN`, `+Infinity` and `-Infinity`, with the IEEE-754 comparison and
  arithmetic behaviour the source relies on (`NaN` is absorbing and
  incomparable; `Math.min`/`Math.max` propagate `NaN`).  Used for the
  claims that are explicitly about infinities or `NaN`
  (Clipper, the degenerate Scaler branch).
* idealized exact arithmetic (`ℚ`, and `ℝ` where `Math.exp`/`Math.log`
  appear) — used for the algebraic claims about the filters and the
  Scaler round trip, where the spec speaks of exact real-number
  identities.

The external collaborator `hertzToNormalised` (from the separate
sc-utils package, not part of this repository) is kept opaque: the
filter definitions are parametrised by it, exactly as §6 of the spec
prescribes.
-/

/-- JavaScript double values, idealized: `NaN`, the two infinities, and
finite values modelled as rationals (`-0` is identified with `0`). -/
inductive JsNum where
  | nan : JsNum
  | posInf : JsNum
  | negInf : JsNum
  | fin : ℚ → JsNum
deriving DecidableEq

namespace JsNum

/-- JavaScript `x <= y` (false whenever either side is `NaN`). -/
def jsLe : JsNum → JsNum → Bool
  | nan, _ => false
  | _, nan => false
  | negInf, _ => true
  | posInf, posInf => true
  | posInf, _ => false
  | fin _, posInf => true
  | fin _, negInf => false
  | fin a, fin b => decide (a ≤ b)

/-- JavaScript `x < y` (false whenever either side is `NaN`). -/
def jsLt : JsNum → JsNum → Bool
  | nan, _ => false
  | _, nan => false
  | negInf, negInf => false
  | negInf, _ => true
  | posInf, _ => false
  | fin _, posInf => true
  | fin _, negInf => false
  | fin a, fin b => decide (a < b)

/-- JavaScript `Math.max` (returns `NaN` if either argument is `NaN`). -/
def jsMax : JsNum → JsNum → JsNum
  | nan, _ => nan
  | _, nan => nan
  | posInf, _ => posInf
  | _, posInf => posInf
  | negInf, y => y
  | x, negInf => x
  | fin a, fin b => fin (max a b)

/-- JavaScript `Math.min` (returns `NaN` if either argument is `NaN`). -/
def jsMin : JsNum → JsNum → JsNum
  | nan, _ => nan
  | _, nan => nan
  | negInf, _ => negInf
  | _, negInf => negInf
  | posInf, y => y
  | x, posInf => x
  | fin a, fin b => fin (min a b)

/-- JavaScript unary minus. -/
def jsNeg : JsNum → JsNum
  | nan => nan
  | posInf => negInf
  | negInf => posInf
  | fin a => fin (-a)

/-- JavaScript addition (`Infinity + -Infinity` is `NaN`). -/
def jsAdd : JsNum → JsNum → JsNum
  | nan, _ => nan
  | _, nan => nan
  | posInf, negInf => nan
  | negInf, posInf => nan
  | posInf, _ => posInf
  | _, posInf => posInf
  | negInf, _ => negInf
  | _, negInf => negInf
  | fin a, fin b => fin (a + b)

/-- JavaScript subtraction. -/
def jsSub (x y : JsNum) : JsNum := jsAdd x (jsNeg y)

/-- JavaScript multiplication (`0 * Infinity` is `NaN`). -/
def jsMul : JsNum → JsNum → JsNum
  | nan, _ => nan
  | _, nan => nan
  | posInf, posInf => posInf
  | posInf, negInf => negInf
  | negInf, posInf => negInf
  | negInf, negInf => posInf
  | posInf, fin b => if b = 0 then nan else if 0 < b then posInf else negInf
  | fin a, posInf => if a = 0 then nan else if 0 < a then posInf else negInf
  | negInf, fin b => if b = 0 then nan else if 0 < b then negInf else posInf
  | fin a, negInf => if a = 0 then nan else if 0 < a then negInf else posInf
  | fin a, fin b => fin (a * b)

/-- JavaScript division (`x / 0` is a signed infinity for `x ≠ 0`,
`0 / 0` and `Infinity / Infinity` are `NaN`; `-0` is not modelled). -/
def jsDiv : JsNum → JsNum → JsNum
  | nan, _ => nan
  | _, nan => nan
  | posInf, posInf => nan
  | posInf, negInf => nan
  | negInf, posInf => nan
  | negInf, negInf => nan
  | posInf, fin b => if 0 ≤ b then posInf else negInf
  | negInf, fin b => if 0 ≤ b then negInf else posInf
  | fin _, posInf => fin 0
  | fin _, negInf => fin 0
  | fin a, fin b =>
      if b = 0 then (if a = 0 then nan else if 0 < a then posInf else negInf)
      else fin (a / b)

/-- A value is finite when it is neither `NaN` nor an infinity. -/
def isFinite : JsNum → Bool
  | fin _ => true
  | _ => false

end JsNum

/-- State of a `Clipper` instance: the two clamp bounds
(`src/Clipper.js`, constructor defaults `-Infinity` / `Infinity`). -/
structure Clipper where
  min : JsNum
  max : JsNum
deriving DecidableEq

namespace Clipper

/-- Embedding of `Clipper.process` (`src/Clipper.js` line 57):
`Math.min(this.max, Math.max(this.min, inputValue))`. -/
def process (c : Clipper) (inputValue : JsNum) : JsNum :=
  JsNum.jsMin c.max (JsNum.jsMax c.min inputValue)

end Clipper

/-- The Scaler `type` attribute: the three curve types plus the
abbreviations the source accepts and rewrites in `init`. -/
inductive ScaleType where
  | linear : ScaleType
  | logarithmic : ScaleType
  | exponential : ScaleType
  | lin : ScaleType
  | log : ScaleType
  | exp : ScaleType
deriving DecidableEq

/-- Embedding of the `type` normalisation at the top of `Scaler.init`
(rewrites the abbreviations `lin`/`log`/`exp` to the long forms). -/
def normalizeType : ScaleType → ScaleType
  | ScaleType.lin => ScaleType.linear
  | ScaleType.log => ScaleType.logarithmic
  | ScaleType.exp => ScaleType.exponential
  | t => t

/-- State of a `Scaler` instance over JavaScript numbers: the
configuration attributes together with the derived state computed by
`init` (`inputRange`, `outputRange`, `inputMin`, `inputMax`,
`logBase`). -/
structure ScalerJs where
  inputStart : JsNum
  inputEnd : JsNum
  outputStart : JsNum
  outputEnd : JsNum
  clip : Bool
  type : ScaleType
  base : JsNum
  inputRange : JsNum
  outputRange : JsNum
  inputMin : JsNum
  inputMax : JsNum
  logBase : JsNum
deriving DecidableEq

namespace ScalerJs

/-- Embedding of `Scaler.init` over JavaScript numbers, parametrised by
the model `mlog` of `Math.log`: normalises `type`, clamps `base` to
`Math.max(0, base)`, and derives the ranges, the input bounds and
`logBase`. -/
def init (mlog : JsNum → JsNum) (s : ScalerJs) : ScalerJs :=
  let ty := normalizeType s.type
  let base := JsNum.jsMax (JsNum.fin 0) s.base
  { s with
    type := ty
    base := base
    inputRange := JsNum.jsSub s.inputEnd s.inputStart
    outputRange := JsNum.jsSub s.outputEnd s.outputStart
    inputMin := JsNum.jsMin s.inputStart s.inputEnd
    inputMax := JsNum.jsMax s.inputStart s.inputEnd
    logBase := mlog base }

/-- Embedding of `Scaler.process` over JavaScript numbers, parametrised
by the models `mexp` of `Math.exp` and `mlog` of `Math.log`.  Mirrors
the source branch for branch: the degenerate step function when a range
is zero, optional input clipping, then the linear, logarithmic or
exponential mapping. -/
def process (mexp mlog : JsNum → JsNum) (s : ScalerJs) (inputValue : JsNum) :
    JsNum :=
  if s.inputRange = JsNum.fin 0 ∨ s.outputRange = JsNum.fin 0 then
    (if JsNum.jsLe inputValue s.inputMin then s.outputStart else s.outputEnd)
  else
    let input := if s.clip then
      JsNum.jsMax s.inputMin (JsNum.jsMin s.inputMax inputValue) else inputValue
    if s.base = JsNum.fin 1 ∨ s.type = ScaleType.linear then
      JsNum.jsAdd s.outputStart
        (JsNum.jsDiv (JsNum.jsMul s.outputRange (JsNum.jsSub input s.inputStart))
          s.inputRange)
    else if s.type = ScaleType.logarithmic then
      JsNum.jsAdd s.outputStart
        (JsNum.jsDiv
          (JsNum.jsMul s.outputRange
            (mlog (JsNum.jsAdd
              (JsNum.jsDiv
                (JsNum.jsMul (JsNum.jsSub s.base (JsNum.fin 1))
                  (JsNum.jsSub input s.inputStart))
                s.inputRange)
              (JsNum.fin 1))))
          s.logBase)
    else
      JsNum.jsAdd s.outputStart
        (JsNum.jsDiv
          (JsNum.jsMul s.outputRange
            (JsNum.jsSub
              (mexp (JsNum.jsDiv
                (JsNum.jsMul s.logBase (JsNum.jsSub input s.inputStart))
                s.inputRange))
              (JsNum.fin 1)))
          (JsNum.jsSub s.base (JsNum.fin 1)))

end ScalerJs

/-- Configuration options of a `Scaler`, with the constructor defaults
of the source over the idealized real model. -/
structure ScalerROptions where
  inputStart : ℝ := 0
  inputEnd : ℝ := 1
  outputStart : ℝ := 0
  outputEnd : ℝ := 1
  clip : Bool := false
  type : ScaleType := ScaleType.linear
  base : ℝ := 1

/-- State of a `Scaler` instance over the idealized real model (finite
real inputs, with `Math.exp`/`Math.log` read as the exact real
functions).  Same fields as `ScalerJs`. -/
structure ScalerR where
  inputStart : ℝ
  inputEnd : ℝ
  outputStart : ℝ
  outputEnd : ℝ
  clip : Bool
  type : ScaleType
  base : ℝ
  inputRange : ℝ
  outputRange : ℝ
  inputMin : ℝ
  inputMax : ℝ
  logBase : ℝ

namespace ScalerR

/-- Embedding of the `Scaler` constructor followed by `init` over the
idealized real model. -/
noncomputable def create (o : ScalerROptions) : ScalerR :=
  let ty := normalizeType o.type
  let base := max 0 o.base
  { inputStart := o.inputStart
    inputEnd := o.inputEnd
    outputStart := o.outputStart
    outputEnd := o.outputEnd
    clip := o.clip
    type := ty
    base := base
    inputRange := o.inputEnd - o.inputStart
    outputRange := o.outputEnd - o.outputStart
    inputMin := min o.inputStart o.inputEnd
    inputMax := max o.inputStart o.inputEnd
    logBase := Real.log base }

/-- Embedding of `Scaler.process` over the idealized real model, branch
for branch as in the source. -/
noncomputable def process (s : ScalerR) (inputValue : ℝ) : ℝ :=
  if s.inputRange = 0 ∨ s.outputRange = 0 then
    (if inputValue ≤ s.inputMin then s.outputStart else s.outputEnd)
  else
    let input := if s.clip then max s.inputMin (min s.inputMax inputValue)
      else inputValue
    if s.base = 1 ∨ s.type = ScaleType.linear then
      s.outputStart + s.outputRange * (input - s.inputStart) / s.inputRange
    else if s.type = ScaleType.logarithmic then
      s.outputStart + s.outputRange
        * Real.log ((s.base - 1) * (input - s.inputStart) / s.inputRange + 1)
        / s.logBase
    else
      s.outputStart + s.outputRange
        * (Real.exp (s.logBase * (input - s.inputStart) / s.inputRange) - 1)
        / (s.base - 1)

end ScalerR

/-- Configuration options of a `Lowpass`, with the constructor defaults
of the source (`sampleRate = 2`, `lowpassFrequency = 0.5`). -/
structure LowpassOptions where
  sampleRate : ℚ := 2
  lowpassFrequency : ℚ := 1/2

/-- Partial attribute record accepted by `Lowpass.set` (the documented
configuration options; `none` means the field is absent from the call,
so `Object.assign` leaves the current value). -/
structure LowpassAttrs where
  sampleRate : Option ℚ := none
  lowpassFrequency : Option ℚ := none

/-- State of a `Lowpass` instance over the idealized rational model:
configuration, the derived coefficients, and the lazily initialised
`outputValueLast` (`none` models the JavaScript `undefined`). -/
structure Lowpass where
  sampleRate : ℚ
  lowpassFrequency : ℚ
  inputScale : ℚ
  feedbackScale : ℚ
  outputValueLast : Option ℚ

namespace Lowpass

/-- Embedding of `Lowpass.init` (`src/Lowpass.js` lines 51-56),
parametrised by the external `hertzToNormalised` collaborator `h2n`
taking the frequency and the sample rate: clamps the conversion result
into `[0,1]` and sets `feedbackScale = 1 - inputScale`. -/
def init (h2n : ℚ → ℚ → ℚ) (st : Lowpass) : Lowpass :=
  let s := max 0 (min 1 (h2n st.lowpassFrequency st.sampleRate))
  { st with inputScale := s, feedbackScale := 1 - s }

/-- Embedding of the `Lowpass` constructor: stores the options and calls
`init`; `outputValueLast` starts undefined. -/
def create (h2n : ℚ → ℚ → ℚ) (o : LowpassOptions) : Lowpass :=
  init h2n
    { sampleRate := o.sampleRate
      lowpassFrequency := o.lowpassFrequency
      inputScale := 0
      feedbackScale := 1
      outputValueLast := none }

/-- Embedding of `Lowpass.set`: `Object.assign` of the given attributes
followed by `init`. -/
def set (h2n : ℚ → ℚ → ℚ) (a : LowpassAttrs) (st : Lowpass) : Lowpass :=
  init h2n
    { st with
      sampleRate := a.sampleRate.getD st.sampleRate
      lowpassFrequency := a.lowpassFrequency.getD st.lowpassFrequency }

/-- Embedding of `Lowpass.process` (`src/Lowpass.js` lines 63-74):
seeds `outputValueLast` with the input on the first call, then applies
the one-pole recursion; returns the output and the updated state. -/
def process (st : Lowpass) (inputValue : ℚ) : ℚ × Lowpass :=
  let last := st.outputValueLast.getD inputValue
  let feedback := last * st.feedbackScale
  let outputValue := inputValue * st.inputScale + feedback
  (outputValue, { st with outputValueLast := some outputValue })

/-- Embedding of `Lowpass.reset`: clears `outputValueLast`. -/
def reset (st : Lowpass) : Lowpass := { st with outputValueLast := none }

end Lowpass

/-- Configuration options of a `Hysteresis`, with the constructor
defaults of the source. -/
structure HysteresisOptions where
  sampleRate : ℚ := 2
  lowpassFrequencyUp : ℚ := 1/2
  lowpassFrequencyDown : ℚ := 1/2

/-- Partial attribute record accepted by `Hysteresis.set` (the
documented configuration options). -/
structure HysteresisAttrs where
  sampleRate : Option ℚ := none
  lowpassFrequencyUp : Option ℚ := none
  lowpassFrequencyDown : Option ℚ := none

/-- One `{inputScale, feedbackScale}` coefficient pair of the
`Hysteresis` filter. -/
structure CoeffPair where
  inputScale : ℚ
  feedbackScale : ℚ

/-- State of a `Hysteresis` instance over the idealized rational model:
configuration, the two direction-dependent coefficient pairs, and the
lazily initialised `outputValueLast`. -/
structure Hysteresis where
  sampleRate : ℚ
  lowpassFrequencyUp : ℚ
  lowpassFrequencyDown : ℚ
  up : CoeffPair
  down : CoeffPair
  outputValueLast : Option ℚ

namespace Hysteresis

/-- Embedding of `Hysteresis.init`: derives the `up` and the `down`
coefficient pair independently from the two frequencies, each clamped
into `[0,1]` with `feedbackScale = 1 - inputScale`. -/
def init (h2n : ℚ → ℚ → ℚ) (st : Hysteresis) : Hysteresis :=
  let upScale := max 0 (min 1 (h2n st.lowpassFrequencyUp st.sampleRate))
  let downScale := max 0 (min 1 (h2n st.lowpassFrequencyDown st.sampleRate))
  { st with
    up := { inputScale := upScale, feedbackScale := 1 - upScale }
    down := { inputScale := downScale, feedbackScale := 1 - downScale } }

/-- Embedding of the `Hysteresis` constructor: stores the options and
calls `init`; `outputValueLast` starts undefined. -/
def create (h2n : ℚ → ℚ → ℚ) (o : HysteresisOptions) : Hysteresis :=
  init h2n
    { sampleRate := o.sampleRate
      lowpassFrequencyUp := o.lowpassFrequencyUp
      lowpassFrequencyDown := o.lowpassFrequencyDown
      up := { inputScale := 0, feedbackScale := 1 }
      down := { inputScale := 0, feedbackScale := 1 }
      outputValueLast := none }

/-- Embedding of `Hysteresis.set`: `Object.assign` of the given
attributes followed by `init`. -/
def set (h2n : ℚ → ℚ → ℚ) (a : HysteresisAttrs) (st : Hysteresis) :
    Hysteresis :=
  init h2n
    { st with
      sampleRate := a.sampleRate.getD st.sampleRate
      lowpassFrequencyUp := a.lowpassFrequencyUp.getD st.lowpassFrequencyUp
      lowpassFrequencyDown :=
        a.lowpassFrequencyDown.getD st.lowpassFrequencyDown }

/-- Embedding of `Hysteresis.process` (lines 94-111 of the source):
seeds `outputValueLast` with the input on the first call, picks the
`up` pair exactly when `inputValue > outputValueLast`, recomputes the
feedback from the current `outputValueLast`, and applies the one-pole
recursion. -/
def process (st : Hysteresis) (inputValue : ℚ) : ℚ × Hysteresis :=
  let last := st.outputValueLast.getD inputValue
  let pair := if last < inputValue then st.up else st.down
  let feedback := last * pair.feedbackScale
  let outputValue := inputValue * pair.inputScale + feedback
  (outputValue, { st with outputValueLast := some outputValue })

/-- Embedding of `Hysteresis.reset`: clears `outputValueLast`. -/
def reset (st : Hysteresis) : Hysteresis := { st with outputValueLast := none }

end Hysteresis

/-- Iterated `Lowpass.process` with a constant input: the state after
`n` calls. -/
def Lowpass.iterate (st : Lowpass) (v : ℚ) : ℕ → Lowpass
  | 0 => st
  | n+1 => (Lowpass.process (Lowpass.iterate st v n) v).2

/-- Output of the `(n+1)`-st call in a run of `Lowpass.process` with a
constant input. -/
def Lowpass.outputAt (st : Lowpass) (v : ℚ) (n : ℕ) : ℚ :=
  (Lowpass.process (Lowpass.iterate st v n) v).1

/-- A concrete degenerate Scaler: `inputStart = inputEnd = 1` gives
`inputRange = 0`, with output endpoints `3` and `7`. -/
def degScaler : ScalerJs :=
  ScalerJs.init id
    { inputStart := JsNum.fin 1
      inputEnd := JsNum.fin 1
      outputStart := JsNum.fin 3
      outputEnd := JsNum.fin 7
      clip := false
      type := ScaleType.linear
      base := JsNum.fin 1
      inputRange := JsNum.fin 0
      outputRange := JsNum.fin 0
      inputMin := JsNum.fin 0
      inputMax := JsNum.fin 0
      logBase := JsNum.fin 0 }

/-- A concrete exponential Scaler mapping `[0,1]` onto `[0,1]` with
base `e`: the configuration a round-trip pair with equal intervals and
the same type and base uses in both directions. -/
noncomputable def expRoundScaler : ScalerR :=
  ScalerR.create
    { inputStart := 0
      inputEnd := 1
      outputStart := 0
      outputEnd := 1
      clip := false
      type := ScaleType.exponential
      base := Real.exp 1 }

/-- C1: for every Lowpass and every Hysteresis instance and every input
`v`, the first `process(v)` call made immediately after construction or
immediately after `reset()` returns `v` exactly (the `outputValueLast`
seeding makes the first output equal the first input). -/
theorem first_process_returns_input (h2n : ℚ → ℚ → ℚ)
    (oL : LowpassOptions) (oH : HysteresisOptions)
    (stL : Lowpass) (stH : Hysteresis) (v : ℚ)
    (hL : stL.feedbackScale = 1 - stL.inputScale)
    (hD : stH.down.feedbackScale = 1 - stH.down.inputScale) :
    (Lowpass.process (Lowpass.create h2n oL) v).1 = v ∧
    (Lowpass.process (Lowpass.reset stL) v).1 = v ∧
    (Hysteresis.process (Hysteresis.create h2n oH) v).1 = v ∧
    (Hysteresis.process (Hysteresis.reset stH) v).1 = v := by
  refine ⟨?_, ?_, ?_, ?_⟩
  · simp only [Lowpass.process, Lowpass.create, Lowpass.init,
      Option.getD_none]
    ring
  · simp only [Lowpass.process, Lowpass.reset, Option.getD_none, hL]
    ring
  · simp only [Hysteresis.process, Hysteresis.create, Hysteresis.init,
      Option.getD_none, lt_self_iff_false, if_false]
    ring
  · simp only [Hysteresis.process, Hysteresis.reset, Option.getD_none,
      lt_self_iff_false, if_false, hD]
    ring

/-- Closed instance of `first_process_returns_input` at concrete states
and input `5`. -/
theorem first_process_returns_input_witness :
    (Lowpass.process
      (Lowpass.create (fun f r => f / r) {}) 5).1 = 5 ∧
    (Lowpass.process
      (Lowpass.reset ⟨2, 1/2, 1/4, 3/4, some 9⟩) 5).1 = 5 ∧
    (Hysteresis.process
      (Hysteresis.create (fun f r => f / r) {}) 5).1 = 5 ∧
    (Hysteresis.process
      (Hysteresis.reset ⟨2, 1/2, 1/2, ⟨1/4, 3/4⟩, ⟨1/10, 9/10⟩, some 9⟩)
      5).1 = 5 :=
  first_process_returns_input (fun f r => f / r) {} {}
    ⟨2, 1/2, 1/4, 3/4, some 9⟩
    ⟨2, 1/2, 1/2, ⟨1/4, 3/4⟩, ⟨1/10, 9/10⟩, some 9⟩ 5
    (by norm_num) (by norm_num)

/-- C2: in the running state, `Hysteresis.process` selects the `up`
coefficient pair exactly when the input is strictly greater than
`outputValueLast` (equal or less selects `down`), and the output is
`input * inputScale + outputValueLast * feedbackScale` with the
selected pair. -/
theorem hysteresis_direction_selection (st : Hysteresis) (last v : ℚ)
    (h : st.outputValueLast = some last) :
    (last < v →
      (Hysteresis.process st v).1 =
        v * st.up.inputScale + last * st.up.feedbackScale) ∧
    (¬ last < v →
      (Hysteresis.process st v).1 =
        v * st.down.inputScale + last * st.down.feedbackScale) := by
  constructor
  · intro hup
    simp [Hysteresis.process, h, hup]
  · intro hdown
    simp [Hysteresis.process, h, hdown]

/-- Closed instance of `hysteresis_direction_selection`, checking both
directions at a concrete state. -/
theorem hysteresis_direction_selection_witness :
    (Hysteresis.process
      (⟨2, 1/2, 1/2, ⟨9/10, 1/10⟩, ⟨1/10, 9/10⟩, some 0⟩ : Hysteresis)
      1).1 = 1 * (9/10) + 0 * (1/10) ∧
    (Hysteresis.process
      (⟨2, 1/2, 1/2, ⟨9/10, 1/10⟩, ⟨1/10, 9/10⟩, some 1⟩ : Hysteresis)
      0).1 = 0 * (1/10) + 1 * (9/10) :=
  ⟨(hysteresis_direction_selection
      ⟨2, 1/2, 1/2, ⟨9/10, 1/10⟩, ⟨1/10, 9/10⟩, some 0⟩ 0 1 rfl).1
      (by norm_num),
   (hysteresis_direction_selection
      ⟨2, 1/2, 1/2, ⟨9/10, 1/10⟩, ⟨1/10, 9/10⟩, some 1⟩ 1 0 rfl).2
      (by norm_num)⟩

/-- Clamping into the unit interval lands in the unit interval. -/
theorem unitClamp_mem (x : ℚ) :
    0 ≤ max 0 (min 1 x) ∧ max 0 (min 1 x) ≤ 1 :=
  ⟨le_max_left 0 (min 1 x), max_le zero_le_one (min_le_left 1 x)⟩

/-- C7: after every constructor call and every `set()` call on a Lowpass
or Hysteresis, each derived coefficient pair has
`inputScale ∈ [0,1]` and `feedbackScale = 1 - inputScale`, for every
value the external `hertzToNormalised` conversion may return. -/
theorem coefficients_clamped_and_sum_to_one (h2n : ℚ → ℚ → ℚ)
    (oL : LowpassOptions) (oH : HysteresisOptions)
    (aL : LowpassAttrs) (aH : HysteresisAttrs)
    (stL : Lowpass) (stH : Hysteresis) :
    (0 ≤ (Lowpass.create h2n oL).inputScale ∧
      (Lowpass.create h2n oL).inputScale ≤ 1 ∧
      (Lowpass.create h2n oL).feedbackScale =
        1 - (Lowpass.create h2n oL).inputScale) ∧
    (0 ≤ (Lowpass.set h2n aL stL).inputScale ∧
      (Lowpass.set h2n aL stL).inputScale ≤ 1 ∧
      (Lowpass.set h2n aL stL).feedbackScale =
        1 - (Lowpass.set h2n aL stL).inputScale) ∧
    (0 ≤ (Hysteresis.create h2n oH).up.inputScale ∧
      (Hysteresis.create h2n oH).up.inputScale ≤ 1 ∧
      (Hysteresis.create h2n oH).up.feedbackScale =
        1 - (Hysteresis.create h2n oH).up.inputScale) ∧
    (0 ≤ (Hysteresis.create h2n oH).down.inputScale ∧
      (Hysteresis.create h2n oH).down.inputScale ≤ 1 ∧
      (Hysteresis.create h2n oH).down.feedbackScale =
        1 - (Hysteresis.create h2n oH).down.inputScale) ∧
    (0 ≤ (Hysteresis.set h2n aH stH).up.inputScale ∧
      (Hysteresis.set h2n aH stH).up.inputScale ≤ 1 ∧
      (Hysteresis.set h2n aH stH).up.feedbackScale =
        1 - (Hysteresis.set h2n aH stH).up.inputScale) ∧
    (0 ≤ (Hysteresis.set h2n aH stH).down.inputScale ∧
      (Hysteresis.set h2n aH stH).down.inputScale ≤ 1 ∧
      (Hysteresis.set h2n aH stH).down.feedbackScale =
        1 - (Hysteresis.set h2n aH stH).down.inputScale) := by
  refine ⟨⟨?_, ?_, rfl⟩, ⟨?_, ?_, rfl⟩, ⟨?_, ?_, rfl⟩, ⟨?_, ?_, rfl⟩,
    ⟨?_, ?_, rfl⟩, ⟨?_, ?_, rfl⟩⟩ <;>
    first
      | exact (unitClamp_mem _).1
      | exact (unitClamp_mem _).2

/-- C8: `set()` on a Lowpass or Hysteresis recomputes the coefficients
from the updated configuration but leaves `outputValueLast` unchanged,
whether it is unset or holds a previous output. -/
theorem set_recomputes_coefficients_preserves_last (h2n : ℚ → ℚ → ℚ)
    (aL : LowpassAttrs) (aH : HysteresisAttrs)
    (stL : Lowpass) (stH : Hysteresis) :
    (Lowpass.set h2n aL stL).outputValueLast = stL.outputValueLast ∧
    (Lowpass.set h2n aL stL).inputScale =
      max 0 (min 1 (h2n (aL.lowpassFrequency.getD stL.lowpassFrequency)
        (aL.sampleRate.getD stL.sampleRate))) ∧
    (Lowpass.set h2n aL stL).feedbackScale =
      1 - (Lowpass.set h2n aL stL).inputScale ∧
    (Hysteresis.set h2n aH stH).outputValueLast = stH.outputValueLast ∧
    (Hysteresis.set h2n aH stH).up.inputScale =
      max 0 (min 1 (h2n (aH.lowpassFrequencyUp.getD stH.lowpassFrequencyUp)
        (aH.sampleRate.getD stH.sampleRate))) ∧
    (Hysteresis.set h2n aH stH).down.inputScale =
      max 0 (min 1 (h2n (aH.lowpassFrequencyDown.getD stH.lowpassFrequencyDown)
        (aH.sampleRate.getD stH.sampleRate))) ∧
    (Hysteresis.set h2n aH stH).up.feedbackScale =
      1 - (Hysteresis.set h2n aH stH).up.inputScale ∧
    (Hysteresis.set h2n aH stH).down.feedbackScale =
      1 - (Hysteresis.set h2n aH stH).down.inputScale :=
  ⟨rfl, rfl, rfl, rfl, rfl, rfl, rfl, rfl⟩

/-- C6: `Clipper.process` is `min(max, max(min, x))`; when
`min ≤ max` and the input is finite the result lies in `[min, max]`,
and when `min ≤ x ≤ max` the result is `x` itself. -/
theorem clipper_process_clamp_contract (c : Clipper) (x : JsNum) :
    Clipper.process c x = JsNum.jsMin c.max (JsNum.jsMax c.min x) ∧
    (JsNum.jsLe c.min c.max = true → x.isFinite = true →
      JsNum.jsLe c.min (Clipper.process c x) = true ∧
      JsNum.jsLe (Clipper.process c x) c.max = true) ∧
    (JsNum.jsLe c.min x = true → JsNum.jsLe x c.max = true →
      Clipper.process c x = x) := by
  obtain ⟨mn, mx⟩ := c
  refine ⟨rfl, ?_, ?_⟩ <;>
    cases mn <;> cases mx <;> cases x <;>
      simp [Clipper.process, JsNum.jsMin, JsNum.jsMax, JsNum.jsLe,
        JsNum.isFinite, le_min_iff, min_le_iff, le_max_iff, max_le_iff] <;>
      intros <;> simp_all [max_eq_right, min_eq_right]

/-- Closed instance of `clipper_process_clamp_contract` at
`min = 0`, `max = 1`: the out-of-range input `2` is clamped into the
interval and the in-range input `1/2` passes through. -/
theorem clipper_process_clamp_contract_witness :
    (JsNum.jsLe (JsNum.fin 0)
        (Clipper.process ⟨JsNum.fin 0, JsNum.fin 1⟩ (JsNum.fin 2)) = true ∧
      JsNum.jsLe (Clipper.process ⟨JsNum.fin 0, JsNum.fin 1⟩ (JsNum.fin 2))
        (JsNum.fin 1) = true) ∧
    Clipper.process ⟨JsNum.fin 0, JsNum.fin 1⟩ (JsNum.fin (1/2)) =
      JsNum.fin (1/2) :=
  ⟨(clipper_process_clamp_contract ⟨JsNum.fin 0, JsNum.fin 1⟩
      (JsNum.fin 2)).2.1 (by decide) (by decide),
   (clipper_process_clamp_contract ⟨JsNum.fin 0, JsNum.fin 1⟩
      (JsNum.fin (1/2))).2.2 (by norm_num [JsNum.jsLe])
      (by norm_num [JsNum.jsLe])⟩

/-- Counterexample to C9 as stated: with `min = 1 > 0 = max` the input
`NaN` (a JavaScript number, hence an input value) is not mapped to
`max` — it propagates as `NaN`. -/
theorem clipper_inverted_nan_counterexample :
    JsNum.jsLt (JsNum.fin 0) (JsNum.fin 1) = true ∧
    Clipper.process ⟨JsNum.fin 1, JsNum.fin 0⟩ JsNum.nan ≠ JsNum.fin 0 := by
  decide

/-- C9 amended: for every Clipper with `max < min` and every non-`NaN`
input `x` (including the infinities), `process(x)` returns `max`,
because the upper clamp is applied last. -/
theorem clipper_inverted_returns_max (c : Clipper) (x : JsNum)
    (hinv : JsNum.jsLt c.max c.min = true) (hx : x ≠ JsNum.nan) :
    Clipper.process c x = c.max := by
  obtain ⟨mn, mx⟩ := c
  cases mn <;> cases mx <;> cases x <;>
    simp_all [Clipper.process, JsNum.jsMin, JsNum.jsMax, JsNum.jsLt,
      inf_eq_left, le_max_iff] <;>
    first
      | linarith
      | (left; linarith)

/-- Closed instance of `clipper_inverted_returns_max` with
`min = 1 > 0 = max` at the three non-`NaN` input shapes. -/
theorem clipper_inverted_returns_max_witness :
    Clipper.process ⟨JsNum.fin 1, JsNum.fin 0⟩ (JsNum.fin 5) = JsNum.fin 0 ∧
    Clipper.process ⟨JsNum.fin 1, JsNum.fin 0⟩ JsNum.posInf = JsNum.fin 0 ∧
    Clipper.process ⟨JsNum.fin 1, JsNum.fin 0⟩ JsNum.negInf = JsNum.fin 0 :=
  ⟨clipper_inverted_returns_max _ _ (by decide) (by decide),
   clipper_inverted_returns_max _ _ (by decide) (by decide),
   clipper_inverted_returns_max _ _ (by decide) (by decide)⟩

/-- C3: whenever a Scaler has `inputRange = 0` or `outputRange = 0`,
`process` is the step function returning `outputStart` for inputs
`≤ inputMin` (JavaScript comparison) and `outputEnd` otherwise, for
every input value including the infinities, independently of the
`Math.exp`/`Math.log` models (no division by the zero range happens). -/
theorem scaler_degenerate_step (mexp mlog : JsNum → JsNum) (s : ScalerJs)
    (v : JsNum)
    (h : s.inputRange = JsNum.fin 0 ∨ s.outputRange = JsNum.fin 0) :
    ScalerJs.process mexp mlog s v =
      if JsNum.jsLe v s.inputMin then s.outputStart else s.outputEnd := by
  unfold ScalerJs.process
  rw [if_pos h]

/-- Evaluation of the derived state of `degScaler`. -/
theorem degScaler_eq :
    degScaler =
      { inputStart := JsNum.fin 1
        inputEnd := JsNum.fin 1
        outputStart := JsNum.fin 3
        outputEnd := JsNum.fin 7
        clip := false
        type := ScaleType.linear
        base := JsNum.fin 1
        inputRange := JsNum.fin 0
        outputRange := JsNum.fin 4
        inputMin := JsNum.fin 1
        inputMax := JsNum.fin 1
        logBase := JsNum.fin 1 } := by
  simp only [degScaler, ScalerJs.init, normalizeType, JsNum.jsSub,
    JsNum.jsAdd, JsNum.jsNeg, JsNum.jsMin, JsNum.jsMax, id_eq,
    ScalerJs.mk.injEq]
  norm_num

/-- Closed instance of `scaler_degenerate_step` on a concrete
degenerate Scaler, evaluated at `-Infinity`, `1`, `+Infinity`. -/
theorem scaler_degenerate_step_witness :
    ScalerJs.process id id degScaler JsNum.negInf = JsNum.fin 3 ∧
    ScalerJs.process id id degScaler (JsNum.fin 1) = JsNum.fin 3 ∧
    ScalerJs.process id id degScaler JsNum.posInf = JsNum.fin 7 := by
  refine ⟨?_, ?_, ?_⟩ <;>
    rw [scaler_degenerate_step id id degScaler _
      (Or.inl (by rw [degScaler_eq]))] <;>
    rw [degScaler_eq] <;> decide

/-- C10: in the degenerate case (`inputRange = 0` or
`outputRange = 0`), a `NaN` input fails the `input <= inputMin`
comparison and falls through to the `outputEnd` branch, so `NaN` does
not propagate. -/
theorem scaler_degenerate_nan_returns_output_end
    (mexp mlog : JsNum → JsNum) (s : ScalerJs)
    (h : s.inputRange = JsNum.fin 0 ∨ s.outputRange = JsNum.fin 0) :
    ScalerJs.process mexp mlog s JsNum.nan = s.outputEnd := by
  unfold ScalerJs.process
  rw [if_pos h]
  cases hm : s.inputMin <;> rfl

/-- Closed instance of `scaler_degenerate_nan_returns_output_end` on a
concrete degenerate Scaler. -/
theorem scaler_degenerate_nan_returns_output_end_witness :
    ScalerJs.process id id degScaler JsNum.nan = JsNum.fin 7 := by
  rw [scaler_degenerate_nan_returns_output_end id id degScaler
    (Or.inl (by rw [degScaler_eq]))]
  rw [degScaler_eq]

/-- Running a Lowpass in the zero state on the constant input `1`
follows the closed form `1 - (1 - inputScale)^n`, and the coefficients
stay fixed along the run. -/
theorem lowpass_iterate_const_one (st : Lowpass)
    (hfs : st.feedbackScale = 1 - st.inputScale)
    (h0 : st.outputValueLast = some 0) (n : ℕ) :
    (Lowpass.iterate st 1 n).inputScale = st.inputScale ∧
    (Lowpass.iterate st 1 n).feedbackScale = st.feedbackScale ∧
    (Lowpass.iterate st 1 n).outputValueLast =
      some (1 - (1 - st.inputScale) ^ n) := by
  induction n with
  | zero => simpa [Lowpass.iterate] using h0
  | succ n ih =>
    obtain ⟨h1, h2, h3⟩ := ih
    refine ⟨?_, ?_, ?_⟩
    · simp [Lowpass.iterate, Lowpass.process, h1]
    · simp [Lowpass.iterate, Lowpass.process, h2]
    · simp only [Lowpass.iterate, Lowpass.process, h1, h2, h3, hfs,
        Option.getD_some, Option.some.injEq]
      ring

/-- Closed form for the outputs of that run. -/
theorem lowpass_outputAt_const_one (st : Lowpass)
    (hfs : st.feedbackScale = 1 - st.inputScale)
    (h0 : st.outputValueLast = some 0) (n : ℕ) :
    Lowpass.outputAt st 1 n = 1 - (1 - st.inputScale) ^ (n + 1) := by
  obtain ⟨h1, h2, h3⟩ := lowpass_iterate_const_one st hfs h0 n
  simp only [Lowpass.outputAt, Lowpass.process, h1, h2, h3, hfs,
    Option.getD_some]
  ring

/-- C4: for a Lowpass with `inputScale ∈ (0,1]` in the zero state, the
outputs of the run on the constant input `1` are non-decreasing, never
exceed `1`, and converge to `1`. -/
theorem lowpass_constant_one_converges (st : Lowpass)
    (hs0 : 0 < st.inputScale) (hs1 : st.inputScale ≤ 1)
    (hfs : st.feedbackScale = 1 - st.inputScale)
    (h0 : st.outputValueLast = some 0) :
    (∀ n, Lowpass.outputAt st 1 n ≤ Lowpass.outputAt st 1 (n + 1)) ∧
    (∀ n, Lowpass.outputAt st 1 n ≤ 1) ∧
    Filter.Tendsto (fun n => (Lowpass.outputAt st 1 n : ℝ))
      Filter.atTop (nhds 1) := by
  have hr0 : 0 ≤ 1 - st.inputScale := by linarith
  have hr1 : 1 - st.inputScale < 1 := by linarith
  refine ⟨?_, ?_, ?_⟩
  · intro n
    rw [lowpass_outputAt_const_one st hfs h0 n,
      lowpass_outputAt_const_one st hfs h0 (n + 1)]
    have := pow_le_pow_of_le_one hr0 hr1.le
      (by omega : n + 1 ≤ n + 1 + 1)
    linarith
  · intro n
    rw [lowpass_outputAt_const_one st hfs h0 n]
    have := pow_nonneg hr0 (n + 1)
    linarith
  · have hcast :
        (fun n => (Lowpass.outputAt st 1 n : ℝ)) =
          fun n => 1 - ((1 : ℝ) - (st.inputScale : ℝ)) ^ (n + 1) := by
      funext n
      rw [lowpass_outputAt_const_one st hfs h0 n]
      push_cast
      ring
    rw [hcast]
    have hr0R : (0 : ℝ) ≤ 1 - (st.inputScale : ℝ) := by
      have : (st.inputScale : ℝ) ≤ 1 := by exact_mod_cast hs1
      linarith
    have hr1R : (1 : ℝ) - (st.inputScale : ℝ) < 1 := by
      have : (0 : ℝ) < (st.inputScale : ℝ) := by exact_mod_cast hs0
      linarith
    have hpow :
        Filter.Tendsto
          (fun n : ℕ => ((1 : ℝ) - (st.inputScale : ℝ)) ^ (n + 1))
          Filter.atTop (nhds 0) :=
      (tendsto_pow_atTop_nhds_zero_of_lt_one hr0R hr1R).comp
        (Filter.tendsto_add_atTop_nat 1)
    simpa using tendsto_const_nhds.sub hpow

/-- Closed instance of `lowpass_constant_one_converges` at
`inputScale = 1/2` and steps `2`, `3` of the run. -/
theorem lowpass_constant_one_converges_witness :
    Lowpass.outputAt ⟨2, 1/2, 1/2, 1/2, some 0⟩ 1 2 ≤
      Lowpass.outputAt ⟨2, 1/2, 1/2, 1/2, some 0⟩ 1 3 ∧
    Lowpass.outputAt ⟨2, 1/2, 1/2, 1/2, some 0⟩ 1 2 ≤ 1 :=
  ⟨(lowpass_constant_one_converges ⟨2, 1/2, 1/2, 1/2, some 0⟩
      (by norm_num) (by norm_num) (by norm_num) rfl).1 2,
   (lowpass_constant_one_converges ⟨2, 1/2, 1/2, 1/2, some 0⟩
      (by norm_num) (by norm_num) (by norm_num) rfl).2.1 2⟩

/-- Parametrisation of a point between two interval endpoints: the
affine parameter lands in `[0,1]`, whichever way round the endpoints
are. -/
theorem unit_param_of_between (a b x : ℝ) (hab : a ≠ b)
    (h1 : min a b ≤ x) (h2 : x ≤ max a b) :
    0 ≤ (x - a) / (b - a) ∧ (x - a) / (b - a) ≤ 1 := by
  rcases lt_or_gt_of_ne hab with h | h
  · rw [min_eq_left h.le] at h1
    rw [max_eq_right h.le] at h2
    constructor
    · apply div_nonneg <;> linarith
    · rw [div_le_one (by linarith)]
      linarith
  · rw [min_eq_right h.le] at h1
    rw [max_eq_left h.le] at h2
    constructor
    · rw [div_nonneg_iff]
      right
      constructor <;> linarith
    · rw [div_le_one_iff]
      right; right
      constructor <;> linarith

/-- The affine image of a `[0,1]` parameter lies between the output
endpoints, whichever way round they are. -/
theorem affine_param_between (p q t : ℝ) (h0 : 0 ≤ t) (h1 : t ≤ 1) :
    min p q ≤ p + (q - p) * t ∧ p + (q - p) * t ≤ max p q := by
  rcases le_total p q with h | h
  · rw [min_eq_left h, max_eq_right h]
    constructor <;> nlinarith
  · rw [min_eq_right h, max_eq_left h]
    constructor <;> nlinarith

/-- Evaluation of `Scaler.process` in the linear branch (type `linear`
after normalisation, or `base = 1` after the clamp), for nondegenerate
ranges and an input inside the input interval (so the optional clip is
the identity). -/
theorem scalerR_linear_eval (o : ScalerROptions)
    (hin : o.inputEnd ≠ o.inputStart) (hout : o.outputEnd ≠ o.outputStart)
    (hlin : normalizeType o.type = ScaleType.linear ∨ max 0 o.base = 1)
    (x : ℝ) (hx1 : min o.inputStart o.inputEnd ≤ x)
    (hx2 : x ≤ max o.inputStart o.inputEnd) :
    ScalerR.process (ScalerR.create o) x =
      o.outputStart + (o.outputEnd - o.outputStart) * (x - o.inputStart)
        / (o.inputEnd - o.inputStart) := by
  have hin0 : o.inputEnd - o.inputStart ≠ 0 := sub_ne_zero_of_ne hin
  have hout0 : o.outputEnd - o.outputStart ≠ 0 := sub_ne_zero_of_ne hout
  simp only [ScalerR.process, ScalerR.create]
  rw [if_neg (not_or_intro hin0 hout0)]
  have hclip :
      (if o.clip then max (min o.inputStart o.inputEnd)
        (min (max o.inputStart o.inputEnd) x) else x) = x := by
    cases o.clip
    · rfl
    · simp only [if_true]
      rw [min_eq_right hx2, max_eq_right hx1]
  rw [hclip]
  rcases hlin with h | h
  · rw [if_pos (Or.inr h)]
  · rw [if_pos (Or.inl h)]

/-- C5 amended: two linear Scalers (type `linear`, or `base = 1` which
forces the linear branch), one mapping the nondegenerate interval
`[a,b]` to `[p,q]` and the other mapping `[p,q]` back to `[a,b]`, with
any clip settings, recover every input inside the first interval
exactly. -/
theorem scaler_linear_round_trip (a b p q base x : ℝ) (c1 c2 : Bool)
    (ty : ScaleType) (hab : a ≠ b) (hpq : p ≠ q)
    (hlin : normalizeType ty = ScaleType.linear ∨ max 0 base = 1)
    (hx1 : min a b ≤ x) (hx2 : x ≤ max a b) :
    ScalerR.process
      (ScalerR.create
        { inputStart := p, inputEnd := q, outputStart := a, outputEnd := b,
          clip := c2, type := ty, base := base })
      (ScalerR.process
        (ScalerR.create
          { inputStart := a, inputEnd := b, outputStart := p, outputEnd := q,
            clip := c1, type := ty, base := base }) x) = x := by
  have hb0 : b - a ≠ 0 := sub_ne_zero_of_ne (Ne.symm hab)
  have hq0 : q - p ≠ 0 := sub_ne_zero_of_ne (Ne.symm hpq)
  rw [scalerR_linear_eval
    { inputStart := a, inputEnd := b, outputStart := p, outputEnd := q,
      clip := c1, type := ty, base := base }
    (Ne.symm hab) (Ne.symm hpq) hlin x hx1 hx2]
  have ht := unit_param_of_between a b x hab hx1 hx2
  have hy := affine_param_between p q ((x - a) / (b - a)) ht.1 ht.2
  rw [scalerR_linear_eval
    { inputStart := p, inputEnd := q, outputStart := a, outputEnd := b,
      clip := c2, type := ty, base := base }
    (Ne.symm hpq) (Ne.symm hab) hlin _
    (by rw [mul_div_assoc]; exact hy.1)
    (by rw [mul_div_assoc]; exact hy.2)]
  field_simp
  ring

/-- Closed instance of `scaler_linear_round_trip`: the linear Scaler
`[0,10] → [0,100]` composed with `[0,100] → [0,10]` recovers `5`. -/
theorem scaler_linear_round_trip_witness :
    ScalerR.process
      (ScalerR.create
        { inputStart := 0, inputEnd := 100, outputStart := 0,
          outputEnd := 10, clip := false, type := ScaleType.linear,
          base := 1 })
      (ScalerR.process
        (ScalerR.create
          { inputStart := 0, inputEnd := 10, outputStart := 0,
            outputEnd := 100, clip := false, type := ScaleType.linear,
            base := 1 }) 5) = 5 :=
  scaler_linear_round_trip 0 10 0 100 1 5 false false ScaleType.linear
    (by norm_num) (by norm_num) (Or.inl rfl)
    (by norm_num) (by norm_num)

/-- Counterexample to C5 as stated: the claim quantifies over every
type, but for two exponential Scalers with the same base `e`, one
configured `[0,1] → [0,1]` and the other `[0,1] → [0,1]` back, the
composite at the interior input `1/2` returns less than `2/5` — an
error beyond `1/10`, far outside floating-point tolerance (the inverse
of an exponential map is the logarithmic map, not another exponential
one). -/
theorem scaler_exponential_round_trip_counterexample :
    ScalerR.process expRoundScaler
      (ScalerR.process expRoundScaler (1/2)) < 2/5 := by
  have he1 : (2.7182818283 : ℝ) < Real.exp 1 := Real.exp_one_gt_d9
  have he2 : Real.exp 1 < 2.7182818286 := Real.exp_one_lt_d9
  have hexpne : Real.exp 1 ≠ 1 := by
    intro h
    rw [h] at he1
    norm_num at he1
  have heval : ∀ y : ℝ,
      ScalerR.process expRoundScaler y =
        (Real.exp y - 1) / (Real.exp 1 - 1) := by
    intro y
    have hb : max (0:ℝ) (Real.exp 1) = Real.exp 1 :=
      max_eq_right (Real.exp_pos 1).le
    simp only [expRoundScaler, ScalerR.process, ScalerR.create, normalizeType,
      hb, Real.log_exp]
    rw [if_neg (by norm_num)]
    rw [if_neg (by simp [hexpne])]
    rw [if_neg (by simp)]
    norm_num
  rw [heval, heval]
  have hpos : 0 < Real.exp (1/2 : ℝ) := Real.exp_pos _
  have hsq : Real.exp (1/2 : ℝ) * Real.exp (1/2 : ℝ) = Real.exp 1 := by
    rw [← Real.exp_add]
    norm_num
  have hh2 : Real.exp (1/2 : ℝ) < 1.6488 := by
    nlinarith [sq_nonneg (Real.exp (1/2 : ℝ) - 1.6488)]
  have hden : (1.7182818283 : ℝ) < Real.exp 1 - 1 := by linarith
  have hFlt : (Real.exp (1/2 : ℝ) - 1) / (Real.exp 1 - 1) < 0.378 := by
    rw [div_lt_iff (by linarith)]
    nlinarith
  have hFexp :
      Real.exp ((Real.exp (1/2 : ℝ) - 1) / (Real.exp 1 - 1)) <
        Real.exp 0.378 := Real.exp_lt_exp.mpr hFlt
  have hinv : Real.exp (0.378 : ℝ) * Real.exp (-(0.378 : ℝ)) = 1 := by
    rw [← Real.exp_add]
    norm_num
  have hlow : (0.622 : ℝ) ≤ Real.exp (-(0.378 : ℝ)) := by
    have := Real.add_one_le_exp (-(0.378 : ℝ))
    linarith
  have hub : Real.exp (0.378 : ℝ) ≤ 1 / 0.622 := by
    nlinarith [Real.exp_pos (0.378 : ℝ)]
  rw [div_lt_iff (by linarith)]
  have hEF : Real.exp ((Real.exp (1/2 : ℝ) - 1) / (Real.exp 1 - 1)) <
      1.6078 := by
    have h1 : (1 : ℝ) / 0.622 < 1.6078 := by norm_num
    linarith
  nlinarith
